import Mathlib

/-!
Verification development for the PromptPilot AI UI generator.

This file gives a shallow embedding, in Lean 4, of the core pipeline of the
repository: the component registry and prop schemas, the recursive tree
validator, the generator (plan lowering), the structural differ, the security
filter, the planner's model/credential fallback loop, the explainer's
fallback, the credit ledger helpers, and the streaming request route.
JavaScript runtime values are modelled by the inductive `JValue`; machine
behaviour (truthiness, template interpolation, zod parsing) is made explicit.
-/

/-- A JSON/JavaScript runtime value as it flows through the untyped parts of
the pipeline (raw model output, `node: any` in the validator, etc.).
`undefined` is represented by absence (`Option.none` at lookup sites). -/
inductive JValue where
  | null : JValue
  | bool : Bool → JValue
  | num : Int → JValue
  | str : String → JValue
  | arr : List JValue → JValue
  | obj : List (String × JValue) → JValue

namespace JValue

/-- Property lookup on an object's field list (`node.key` in JS); objects are
modelled with unique keys, so first match is the value. -/
def lookupField : List (String × JValue) → String → Option JValue
  | [], _ => none
  | (k, v) :: rest, key => if k == key then some v else lookupField rest key

/-- JavaScript truthiness of a defined value: `null`, `false`, `0` and the
empty string are falsy; arrays and objects are always truthy. -/
def jsTruthy : JValue → Bool
  | .null => false
  | .bool b => b
  | .num n => n != 0
  | .str s => s != ""
  | .arr _ => true
  | .obj _ => true

/-- Template interpolation of a possibly-undefined value, as in
a JS template literal: `undefined` prints as "undefined", `null` as "null",
a string as itself. (Arrays/objects print by JS rules we do not depend on;
we render them by their tag only.) -/
def displayJs : Option JValue → String
  | none => "undefined"
  | some .null => "null"
  | some (.bool b) => if b then "true" else "false"
  | some (.num n) => toString n
  | some (.str s) => s
  | some (.arr _) => "array"
  | some (.obj _) => "object"

/-- `x || {}` in JS: keep a truthy value, otherwise the empty object. -/
def jsOrEmptyObj : Option JValue → JValue
  | none => .obj []
  | some v => if jsTruthy v then v else .obj []

theorem sizeOf_lookupField {fields : List (String × JValue)} {key : String}
    {v : JValue} (h : lookupField fields key = some v) :
    sizeOf v < sizeOf fields := by
  induction fields with
  | nil => simp [lookupField] at h
  | cons kv rest ih =>
    obtain ⟨k, w⟩ := kv
    by_cases hk : k == key
    · simp [lookupField, hk] at h
      subst h
      simp
      omega
    · simp [lookupField, hk] at h
      have := ih h
      simp
      omega

end JValue

open JValue

/-! ## Component registry (`lib/componentRegistry.ts`)

`componentRegistry` maps the 8 component names to React components; the
validator only consumes its key set, `allowedComponents`. -/

/-- `allowedComponents = Object.keys(componentRegistry)`: the closed set of
registered component type names, in declaration order. -/
def allowedComponents : List String :=
  ["Button", "Card", "Navbar", "Sidebar", "Input", "Modal", "Table", "Chart"]

/-! ## Prop schemas (`lib/propSchemas.ts`)

Each component's zod object schema is modelled by a list of field
specifications.  zod's default object semantics are made explicit:
a parsed value must be a plain object (not an array, not null), required
fields must be present with the right type, optional fields must have the
right type when present, and unknown keys are stripped, not rejected. -/

/-- The primitive/enum field types used by the 8 schemas. -/
inductive PropType where
  | string : PropType
  | strEnum : List String → PropType
  | stringArray : PropType
  | stringMatrix : PropType
deriving Repr, DecidableEq

/-- One field of a zod object schema: key, whether `.optional()` was applied,
and the value type. -/
structure FieldSpec where
  key : String
  required : Bool
  type : PropType
deriving Repr, DecidableEq

/-- `propSchemas`: the zod schema of each registered component. -/
def propSchemas : String → Option (List FieldSpec)
  | "Button" => some [⟨"label", true, .string⟩,
                      ⟨"variant", false, .strEnum ["primary", "secondary"]⟩]
  | "Card" => some [⟨"title", false, .string⟩]
  | "Navbar" => some [⟨"title", false, .string⟩]
  | "Chart" => some [⟨"title", false, .string⟩]
  | "Modal" => some [⟨"title", false, .string⟩]
  | "Input" => some [⟨"placeholder", false, .string⟩]
  | "Table" => some [⟨"headers", true, .stringArray⟩,
                     ⟨"rows", true, .stringMatrix⟩]
  | "Sidebar" => some []
  | _ => none

/-- zod type check of a present value against a field type. -/
def zodCheckType : PropType → JValue → Bool
  | .string, .str _ => true
  | .string, _ => false
  | .strEnum vals, .str s => vals.contains s
  | .strEnum _, _ => false
  | .stringArray, .arr xs => xs.all (fun x => match x with | .str _ => true | _ => false)
  | .stringArray, _ => false
  | .stringMatrix, .arr xs =>
      xs.all (fun row => match row with
        | .arr cells => cells.all (fun c => match c with | .str _ => true | _ => false)
        | _ => false)
  | .stringMatrix, _ => false

/-- One field's zod check against the parsed object's field list: a required
field must be present and well-typed, an optional field must be well-typed
when present. -/
def zodFieldOk (fields : List (String × JValue)) (f : FieldSpec) : Bool :=
  match lookupField fields f.key with
  | none => !f.required
  | some v => zodCheckType f.type v

/-- `schema.parse(v)` succeeds iff `v` is a plain object whose declared
fields all check; unknown keys are stripped silently (zod default). -/
def zodParseOk (schema : List FieldSpec) : JValue → Bool
  | .obj fields => schema.all (zodFieldOk fields)
  | _ => false

/-- The keys of `schema` that fail on `v`; stands in for the text of zod's
aggregate error message, whose exact wording nothing downstream inspects. -/
def zodFailingKeys (schema : List FieldSpec) : JValue → List String
  | .obj fields => (schema.filter (fun f => !zodFieldOk fields f)).map (·.key)
  | _ => schema.map (·.key)

/-- The result record of `validateProps`. -/
structure PropValidation where
  valid : Bool
  error : Option String
deriving Repr, DecidableEq

/-- `validateProps(componentType, props)` from `lib/propSchemas.ts`:
looks up the component's schema (unknown component is an error) and runs
`schema.parse(props || \x7b\x7d)`, reporting zod failures as an error
message naming the component. -/
def validateProps (componentType : String) (props : Option JValue) : PropValidation :=
  match propSchemas componentType with
  | none => ⟨false, some ("Unknown component: " ++ componentType)⟩
  | some schema =>
      let target := jsOrEmptyObj props
      if zodParseOk schema target then ⟨true, none⟩
      else ⟨false, some ("Invalid props for " ++ componentType ++ ": "
              ++ String.intercalate ", " (zodFailingKeys schema target))⟩

/-! ## Tree validator (`validateUINode` in `lib/componentRegistry.ts`) -/

/-- The result record of `validateUINode`. -/
structure ValidationResult where
  valid : Bool
  errors : List String
deriving Repr, DecidableEq

/-- The guard `!node.type || !allowedComponents.includes(node.type)`:
the looked-up `type` is missing, falsy, or not a registered name. -/
def badTypeField : Option JValue → Bool
  | none => true
  | some v =>
      !(jsTruthy v && (match v with
        | .str s => allowedComponents.contains s
        | _ => false))

mutual

/-- `validateUINode(node, path)`: rejects non-objects, rejects unregistered
`type` without descending, validates props via `validateProps`, and recurses
into a present `children` array with indexed paths.  `valid` is exactly
"the accumulated error list is empty". -/
def validateUINode (node : JValue) (path : String) : ValidationResult :=
  match node with
  | .null | .bool _ | .num _ | .str _ =>
      -- `!node || typeof node !== "object"`
      ⟨false, [path ++ ": Invalid node type"]⟩
  | .arr _ =>
      -- an array passes the typeof-object guard but has no `type` property
      ⟨false, [path ++ ": Invalid component type \"undefined\""]⟩
  | .obj fields =>
      let tv := lookupField fields "type"
      if badTypeField tv then
        ⟨false, [path ++ ": Invalid component type \"" ++ displayJs tv ++ "\""]⟩
      else
        let typeName := match tv with | some (.str s) => s | _ => ""
        let pv := validateProps typeName (lookupField fields "props")
        let propErrs := if pv.valid then [] else [path ++ ": " ++ pv.error.getD "undefined"]
        let childErrs :=
          match hc : lookupField fields "children" with
          | none => []
          | some cv =>
            match cv with
            | .arr xs => validateChildren path 0 xs
            | _ => [path ++ ": children must be an array"]
        let errors := propErrs ++ childErrs
        ⟨errors.isEmpty, errors⟩
termination_by sizeOf node
decreasing_by
  simp_wf
  have h := sizeOf_lookupField hc
  simp at h
  omega

/-- The `node.children.forEach` loop of `validateUINode`, collecting every
child's errors under the indexed path. -/
def validateChildren (path : String) (i : Nat) : List JValue → List String
  | [] => []
  | c :: rest =>
      (validateUINode c (path ++ ".children[" ++ toString i ++ "]")).errors
        ++ validateChildren path (i + 1) rest
termination_by xs => sizeOf xs

end

/-! ## Generator (`lib/agents/generator.ts`) -/

/-- `ComponentSpec`: the Planner's raw tree node (`type`, optional `props`,
optional `children`, planning-only `reasoning`). -/
inductive ComponentSpec where
  | mk (type : String) (props : Option JValue)
       (children : Option (List ComponentSpec)) (reasoning : Option String)

/-- The root-carrying part of a `Plan` consumed by the generator. -/
structure Plan where
  root : ComponentSpec
  description : Option String

mutual

/-- `specToNode(spec)`: lowers a `ComponentSpec` to the JS object
`\x7b type, props: spec.props || \x7b\x7d, children: spec.children?.map(specToNode) || [] \x7d`. -/
def specToNode : ComponentSpec → JValue
  | .mk t p cs _ =>
      .obj [("type", .str t), ("props", jsOrEmptyObj p),
            ("children", .arr (specsToNodes (cs.getD [])))]
termination_by s => sizeOf s
decreasing_by
  simp_wf
  cases cs with
  | none => simp [Option.getD]; omega
  | some l => simp [Option.getD]; omega

/-- `spec.children?.map(specToNode)` element by element. -/
def specsToNodes : List ComponentSpec → List JValue
  | [] => []
  | c :: rest => specToNode c :: specsToNodes rest
termination_by xs => sizeOf xs

end

/-- `generator(plan)`: lowers `plan.root` and immediately validates; returns
the tree only when validation is clean, otherwise raises an error joining
every validation message. -/
def generator (plan : Plan) : Except String JValue :=
  let tree := specToNode plan.root
  let validation := validateUINode tree "root"
  if validation.valid then .ok tree
  else .error ("Generated tree failed validation:\n"
        ++ String.intercalate "\n" validation.errors)

/-! ## Differ (`lib/diff.ts`)

`diff.ts` is typed over `UINode`; trees are modelled by the inductive below
(`props` never inspected by the differ, `children` optional as in the TS
type).  The differ is also re-stated over raw `JValue` trees further down for
the route, which feeds it untyped request data. -/

/-- The TS `UINode` record: `type`, optional `props`, optional `children`. -/
inductive UINode where
  | mk (type : String) (props : Option JValue) (children : Option (List UINode))

/-- The `type` field of a `UINode`. -/
def UINode.typeOf : UINode → String
  | .mk t _ _ => t

theorem sizeOf_option_getD_nil {α : Type} [SizeOf α] (o : Option (List α)) :
    sizeOf (o.getD []) ≤ sizeOf o := by
  cases o with
  | none => simp [Option.getD]
  | some l => simp [Option.getD]

mutual

/-- `flattenTree(node, arr)`: pushes `node.type`, then flattens each child
into the same accumulator (depth-first pre-order). -/
def flattenTree (node : UINode) (arr : List String) : List String :=
  match node with
  | .mk t _p cs => flattenTreeList (cs.getD []) (arr ++ [t])
termination_by sizeOf node
decreasing_by
  simp_wf
  refine Nat.lt_of_le_of_lt (sizeOf_option_getD_nil _) ?_
  omega

/-- The `node.children.forEach` loop of `flattenTree`. -/
def flattenTreeList (xs : List UINode) (arr : List String) : List String :=
  match xs with
  | [] => arr
  | c :: rest => flattenTreeList rest (flattenTree c arr)
termination_by sizeOf xs

end

/-- The `Diff` record: type names added and removed. -/
structure TreeDiff where
  added : List String
  removed : List String
deriving Repr, DecidableEq

/-- `diffTrees(oldTree, newTree)`: with no previous tree, everything in the
new flatten is added; otherwise membership-filter each flatten against the
other. -/
def diffTrees (oldTree : Option UINode) (newTree : UINode) : TreeDiff :=
  match oldTree with
  | none => ⟨flattenTree newTree [], []⟩
  | some o =>
      let oldFlat := flattenTree o []
      let newFlat := flattenTree newTree []
      ⟨newFlat.filter (fun x => !(oldFlat.contains x)),
       oldFlat.filter (fun x => !(newFlat.contains x))⟩

/-! ## Security filter (`lib/security.ts`) -/

/-- The fixed ordered list of forbidden patterns; each source regex is a
case-insensitive literal word sequence, recorded here as its lowercase
body. -/
def forbiddenPatterns : List String :=
  ["ignore previous", "override", "system prompt", "act as", "create div",
   "html", "span", "inline css", "tailwind", "external library",
   "new component"]

/-- The characters of a string, lowercased (the patterns themselves are
already lowercase). -/
def lowerChars (s : String) : List Char :=
  s.data.map Char.toLower

/-- `/pat/i.test(intent)` for a lowercase literal pattern: substring test
against the lowercased intent. -/
def patternTest (pat intent : String) : Bool :=
  ((lowerChars intent).tails).any (fun t => pat.data.isPrefixOf t)

/-- `detectPromptInjection(intent)`: returns a message naming the first
matching pattern in order, or `none` when the input is safe. -/
def detectPromptInjection (intent : String) : Option String :=
  (forbiddenPatterns.find? (fun p => patternTest p intent)).map
    (fun p => "Forbidden pattern detected: /" ++ p ++ "/i")

/-! ## Planner fallback loop (`lib/agents/planner.ts`)

One attempt of the try-block (model call, raw-text check, JSON extraction,
root check) is abstracted as `run model key`; a thrown error carries its
rate-limited classification (`status === 429 || /429|rate limit/i` on the
message) and its message.  A successful attempt carries the text/plan the
attempt returned. -/

/-- Outcome of one `(model, credential)` attempt. -/
inductive CallOutcome (α : Type) where
  | success (val : α)
  | failure (rateLimited : Bool) (message : String)

/-- The planner's ordered model list. -/
def plannerModels : List String :=
  ["openrouter/free", "meta-llama/llama-3.2-3b-instruct:free"]

/-- The inner `for (const apiKey of keys)` loop for one model: returns the
attempted `(model, key)` pairs in order, the successful result if any, and
the last failure message observed inside this run.  A rate-limited failure
with multiple keys configured continues to the next key; any other failure
breaks to the next model. -/
def plannerTryKeys {α : Type} (run : String → String → CallOutcome α)
    (model : String) (multiKey : Bool) :
    List String → List (String × String) × Option α × Option String
  | [] => ([], none, none)
  | k :: rest =>
      match run model k with
      | .success t => ([(model, k)], some t, none)
      | .failure rl msg =>
          if rl && multiKey then
            let r := plannerTryKeys run model multiKey rest
            ((model, k) :: r.1, r.2.1, some (r.2.2.getD msg))
          else ([(model, k)], none, some msg)

/-- The outer `for (const model of MODELS)` loop, threading `lastError`. -/
def plannerLoop {α : Type} (run : String → String → CallOutcome α)
    (keys : List String) :
    List String → Option String → List (String × String) × Except String α
  | [], lastErr =>
      ([], .error ("All models failed. Last error: " ++ lastErr.getD "Unknown"))
  | m :: ms, lastErr =>
      let r := plannerTryKeys run m (keys.length > 1) keys
      match r.2.1 with
      | some t => (r.1, .ok t)
      | none =>
          let next := plannerLoop run keys ms
            (match r.2.2 with | some e => some e | none => lastErr)
          (r.1 ++ next.1, next.2)

/-- `planner`: substitutes `[""]` for an absent/empty key list, then runs the
fallback loop; returns the ordered attempt trace alongside the result. -/
def planner {α : Type} (run : String → String → CallOutcome α)
    (apiKeys : List String) :
    List (String × String) × Except String α :=
  let keys := if apiKeys.isEmpty then [""] else apiKeys
  plannerLoop run keys plannerModels none

/-! ## Explainer fallback (`lib/agents/explainer.ts`, fallback version) -/

/-- The explainer's ordered model list. -/
def explainerModels : List String :=
  ["openrouter/free", "meta-llama/llama-3.2-3b-instruct:free"]

/-- `plan.children && plan.children.length > 0` evaluated on the tree's
`children` property: `some n` with the JS `.length` when the chain is
truthy, `none` otherwise. -/
def jsChildCountPos : Option JValue → Option Nat
  | some (.arr xs) => if xs.length > 0 then some xs.length else none
  | some (.str s) => if s.length > 0 then some s.length else none
  | _ => none

/-- The deterministic fallback sentence built from the tree's root type and
child count when every model attempt has failed. -/
def explainerFallbackText (plan : JValue) : String :=
  let tv := match plan with | .obj fs => lookupField fs "type" | _ => none
  let cv := match plan with | .obj fs => lookupField fs "children" | _ => none
  "This UI structure was generated based on your request. It includes "
    ++ displayJs tv ++ " as the root component"
    ++ (match jsChildCountPos cv with
        | some n => " with " ++ toString n ++ " child component(s)"
        | none => "")
    ++ "."

/-- The explainer's `for (const model of MODELS)` loop: a failed attempt or
a whitespace-only explanation (which the try-block turns into a thrown,
caught error) moves on to the next model; exhaustion returns the fallback
sentence instead of raising. -/
def explainerLoop (run : String → CallOutcome String) (plan : JValue) :
    List String → String
  | [] => explainerFallbackText plan
  | m :: rest =>
      match run m with
      | .success t => if t.trim = "" then explainerLoop run plan rest else t
      | .failure _ _ => explainerLoop run plan rest

/-- `explainer(plan)` with one abstract model attempt per configured model. -/
def explainer (run : String → CallOutcome String) (plan : JValue) : String :=
  explainerLoop run plan explainerModels

/-! ## Credits (`lib/credits.ts`)

UTC calendar dates are modelled by their day keys
(`toISOString().slice(0, 10)`). -/

/-- The user document fields the route touches. -/
structure UserRec where
  creditsRemaining : Int
  lastCreditReset : Option String
  createdAtKey : Option String
deriving Repr, DecidableEq

/-- `needsCreditReset(lastReset)`: reset when no record exists or the
recorded day differs from today's UTC day. -/
def needsCreditReset (lastReset : Option String) (todayKey : String) : Bool :=
  match lastReset with
  | none => true
  | some k => k != todayKey

/-- `applyDailyCredits(user)`: refill `creditsRemaining` and stamp the reset
day when a reset is due; returns the updated user and whether it changed. -/
def applyDailyCredits (dailyCredits : Int) (todayKey : String) (u : UserRec) :
    UserRec × Bool :=
  if needsCreditReset u.lastCreditReset todayKey then
    ({ u with creditsRemaining := dailyCredits,
              lastCreditReset := some todayKey }, true)
  else (u, false)

/-! ## Streaming request route (`app/api/agent/route.ts`)

The `POST` handler is modelled as a function from an environment capturing
the request and every external collaborator (auth verifier, user store,
model attempts, session store, clock) to the ordered list of emitted stream
events plus the final persisted user document.  The wall clock is modelled
by `times k`, the value of `Date.now() - startTime` at the k-th timestamp
assignment.  Planner and explainer invocations are marked in the event list
so that "no model call was made" is a statement about the trace. -/

/-- `TokenPayload` from `lib/auth.ts`. -/
structure TokenPayload where
  userId : String
  email : String
deriving Repr, DecidableEq

/-- `header.split(" ")` over the character list (split at every single
space, keeping empty segments, as JS `String.prototype.split` does). -/
def splitOnSpace : List Char → List (List Char)
  | [] => [[]]
  | c :: rest =>
      match splitOnSpace rest with
      | [] => [[c]]
      | h :: t => if c == ' ' then [] :: h :: t else (c :: h) :: t

/-- `extractToken(authHeader)`: accepts exactly `Bearer <token>`. -/
def extractToken (authHeader : Option String) : Option String :=
  match authHeader with
  | none => none
  | some h =>
      match splitOnSpace h.data with
      | [a, b] => if a == "Bearer".data then some (String.mk b) else none
      | _ => none

/-- One entry of the route's `progress` array. -/
structure ProgressStep where
  status : String
  emoji : String
  completed : Bool
  timestamp : Int
deriving Repr, DecidableEq

/-- The route's initial six-step progress array. -/
def initialProgress : List ProgressStep :=
  [⟨"Scanning intent...", "🔍", false, 0⟩,
   ⟨"Planning layout...", "🎯", false, 0⟩,
   ⟨"Building tree...", "🏗️", false, 0⟩,
   ⟨"Validating structure...", "✅", false, 0⟩,
   ⟨"Generating explanation...", "🧠", false, 0⟩,
   ⟨"Complete!", "🎉", false, 0⟩]

/-- In-place update of the i-th element (JS `progress[i] = ...`). -/
def updateAt {α : Type} (xs : List α) (i : Nat) (f : α → α) : List α :=
  match xs, i with
  | [], _ => []
  | x :: rest, 0 => f x :: rest
  | x :: rest, n + 1 => x :: updateAt rest n f

/-- The JSON object sent with a `done` event; absent keys are `none`. -/
structure DonePayload where
  success : Bool
  error : Option String := none
  progress : Option (List ProgressStep) := none
  creditsRemaining : Option Int := none
  dailyCredits : Option Int := none
  planField : Option JValue := none
  explanation : Option String := none
  diff : Option TreeDiff := none
  sessionId : Option String := none

/-- One emitted stream event, or a marker recording that the route invoked
the planner / explainer model client. -/
inductive REvent where
  | progressEv (snap : List ProgressStep)
  | logEv (msg : String)
  | errorEv (msg : String)
  | doneEv (payload : DonePayload)
  | plannerCall
  | explainerCall

/-- Whether an event is the planner-invocation marker. -/
def REvent.isPlannerCall : REvent → Bool
  | .plannerCall => true
  | _ => false

/-- Whether an event is the explainer-invocation marker. -/
def REvent.isExplainerCall : REvent → Bool
  | .explainerCall => true
  | _ => false

/-- The payload of a `done` event, if this event is one. -/
def REvent.doneOf : REvent → Option DonePayload
  | .doneEv p => some p
  | _ => none

/-! The differ as invoked by the route, over raw JS values: the generated
tree and the request's `previousTree` are untyped at this call site.  On
registry-valid trees (the only trees the route ever feeds it) this agrees
with the `UINode`-typed `flattenTree`/`diffTrees` above. -/

/-- `node.type` of a raw tree node, as the string the differ compares. -/
def jTypeOf (node : JValue) : String :=
  displayJs (match node with | .obj fs => lookupField fs "type" | _ => none)

/-- `node.children` of a raw tree node, when it is a present array. -/
def jChildren (node : JValue) : List JValue :=
  match node with
  | .obj fs =>
      match lookupField fs "children" with
      | some (.arr xs) => xs
      | _ => []
  | _ => []

mutual

/-- `flattenTree` over raw values (depth-first pre-order type names);
`jChildren` is inlined so that recursion only happens on a present
children array. -/
def flattenTreeJ (node : JValue) (arr : List String) : List String :=
  match node with
  | .obj fs =>
      (match hc : lookupField fs "children" with
       | some (.arr xs) => flattenTreeJList xs (arr ++ [jTypeOf (.obj fs)])
       | _ => arr ++ [jTypeOf (.obj fs)])
  | _ => arr ++ [jTypeOf node]
termination_by sizeOf node
decreasing_by
  simp_wf
  have h := sizeOf_lookupField hc
  simp at h
  omega

/-- The children loop of `flattenTreeJ`. -/
def flattenTreeJList (xs : List JValue) (arr : List String) : List String :=
  match xs with
  | [] => arr
  | c :: rest => flattenTreeJList rest (flattenTreeJ c arr)
termination_by sizeOf xs

end

/-- `diffTrees` over raw values, as the route calls it. -/
def diffTreesJ (oldTree : Option JValue) (newTree : JValue) : TreeDiff :=
  match oldTree with
  | none => ⟨flattenTreeJ newTree [], []⟩
  | some o =>
      let oldFlat := flattenTreeJ o []
      let newFlat := flattenTreeJ newTree []
      ⟨newFlat.filter (fun x => !(oldFlat.contains x)),
       oldFlat.filter (fun x => !(newFlat.contains x))⟩

/-- The request plus every external collaborator the route consults. -/
structure RouteEnv where
  authHeader : Option String
  verify : String → Option TokenPayload
  findUser : String → Option UserRec
  todayKey : String
  dailyCredits : Int
  envKeys : List (Option String)
  intent : String
  previousTree : Option JValue
  plannerRun : String → String → CallOutcome Plan
  explainerRun : String → CallOutcome String
  sessionHeader : Option String
  findSession : String → Option String
  newSessionId : String
  times : Nat → Int

/-- What the route produced: the ordered event/marker list and the last
persisted state of the user document (none when no user was loaded). -/
structure RouteResult where
  events : List REvent
  finalUser : Option UserRec

/-- `isNewUser`: created today and not yet past the daily allowance. -/
def routeIsNewUser (env : RouteEnv) (user1 : UserRec) : Bool :=
  user1.createdAtKey == some env.todayKey
    && env.dailyCredits - user1.creditsRemaining < env.dailyCredits

/-- The API-key list the route hands the planner/explainer: all three
configured keys for a new user, otherwise just the primary, absent ones
filtered out. -/
def routeApiKeys (env : RouteEnv) (user1 : UserRec) : List String :=
  (if routeIsNewUser env user1 then env.envKeys
   else [env.envKeys.headD none]).filterMap id

/-- The progress snapshot the catch block produces when the planner throws:
step 0 completed at `times 0`, step 1 stamped at `times 1` but not
completed. -/
def catchSnapAfterPlanning (env : RouteEnv) : List ProgressStep :=
  updateAt (updateAt initialProgress 0
      (fun s => { s with completed := true, timestamp := env.times 0 })) 1
    (fun s => { s with timestamp := env.times 1 })

/-- The progress snapshot the catch block produces when the generator
throws: steps 0 and 1 completed, step 2 stamped at `times 2` but not
completed. -/
def catchSnapAfterBuilding (env : RouteEnv) : List ProgressStep :=
  updateAt (updateAt (updateAt initialProgress 0
      (fun s => { s with completed := true, timestamp := env.times 0 })) 1
      (fun s => { s with completed := true, timestamp := env.times 1 })) 2
    (fun s => { s with timestamp := env.times 2 })

/-- The progress snapshot after every stage has completed (the one carried
by the session-not-found failure payload and the success payload). -/
def completeSnap (env : RouteEnv) : List ProgressStep :=
  updateAt (updateAt (updateAt (updateAt (updateAt (updateAt initialProgress 0
      (fun s => { s with completed := true, timestamp := env.times 0 })) 1
      (fun s => { s with completed := true, timestamp := env.times 1 })) 2
      (fun s => { s with completed := true, timestamp := env.times 2 })) 3
      (fun s => { s with completed := true, timestamp := env.times 3 })) 4
      (fun s => { s with completed := true, timestamp := env.times 4 })) 5
    (fun s => { s with completed := true, timestamp := env.times 5 })

/-- The catch block: stamp the elapsed time on the first uncompleted step
(its `completed` flag untouched), then emit the error event and the terminal
failure payload carrying the current progress. -/
def catchTail (progress : List ProgressStep) (ts : Int) (msg : String) :
    List REvent :=
  let m := if msg == "" then "System failure." else msg
  let progressF :=
    match progress.findIdx? (fun p => !p.completed) with
    | some i => updateAt progress i (fun s => { s with timestamp := ts })
    | none => progress
  [.errorEv m, .doneEv { success := false, error := some m,
                         progress := some progressF }]

/-- The `POST` handler body (`run` inside the stream), straight-line with
one early return per failure branch, as in the source. -/
def route (env : RouteEnv) : RouteResult :=
  let ev0 : List REvent := [.progressEv initialProgress]
  match extractToken env.authHeader with
  | none =>
      ⟨ev0 ++ [.errorEv "Unauthorized: No token provided",
               .doneEv { success := false,
                         error := some "Unauthorized: No token provided" }],
       none⟩
  | some token =>
  match env.verify token with
  | none =>
      ⟨ev0 ++ [.errorEv "Unauthorized: Invalid token",
               .doneEv { success := false,
                         error := some "Unauthorized: Invalid token" }],
       none⟩
  | some payload =>
  let ev1 := ev0 ++ [.logEv ("✓ Auth verified for user: " ++ payload.email)]
  match env.findUser payload.userId with
  | none =>
      ⟨ev1 ++ [.errorEv "Unauthorized: User not found",
               .doneEv { success := false,
                         error := some "Unauthorized: User not found" }],
       none⟩
  | some user0 =>
  let user1 := (applyDailyCredits env.dailyCredits env.todayKey user0).1
  let isNewUser := routeIsNewUser env user1
  let apiKeys := routeApiKeys env user1
  let ev2 := ev1 ++ (if isNewUser && apiKeys.length > 1
                     then [REvent.logEv "Using fallback API keys for new-user quota."]
                     else [])
  if user1.creditsRemaining ≤ 0 then
    ⟨ev2 ++ [.errorEv "Daily credits exhausted. Try again after reset.",
             .doneEv { success := false,
                       error := some "Daily credits exhausted. Try again after reset.",
                       creditsRemaining := some 0,
                       dailyCredits := some env.dailyCredits }],
     some user1⟩
  else
  let user2 := { user1 with creditsRemaining := user1.creditsRemaining - 1 }
  let creditsRemaining := user2.creditsRemaining
  let progress1 := updateAt initialProgress 0
    (fun s => { s with completed := true, timestamp := env.times 0 })
  let ev3 := ev2 ++ [.progressEv progress1,
                     .logEv ("✓ Security check passed: "
                              ++ toString (env.times 0) ++ "ms")]
  match detectPromptInjection env.intent with
  | some _ =>
      ⟨ev3 ++ [.errorEv "Prompt violates system constraints.",
               .doneEv { success := false,
                         error := some "Prompt violates system constraints.",
                         progress := some progress1 }],
       some user2⟩
  | none =>
  let ev4 := ev3 ++ [.logEv "Attempting planner...", .plannerCall]
  match (planner env.plannerRun apiKeys).2 with
  | .error e => ⟨ev4 ++ catchTail progress1 (env.times 1) e, some user2⟩
  | .ok plan =>
  let progress2 := updateAt progress1 1
    (fun s => { s with completed := true, timestamp := env.times 1 })
  let ev5 := ev4 ++ [.progressEv progress2,
                     .logEv ("✓ Planner succeeded: "
                              ++ toString (env.times 1) ++ "ms"),
                     .logEv "Generating tree from plan..."]
  match generator plan with
  | .error e => ⟨ev5 ++ catchTail progress2 (env.times 2) e, some user2⟩
  | .ok tree =>
  let progress3 := updateAt progress2 2
    (fun s => { s with completed := true, timestamp := env.times 2 })
  let progress4 := updateAt progress3 3
    (fun s => { s with completed := true, timestamp := env.times 3 })
  let ev6 := ev5 ++ [.progressEv progress3,
                     .logEv ("✓ Tree generated: "
                              ++ toString (env.times 2) ++ "ms"),
                     .logEv "✅ Tree generated and validated successfully",
                     .progressEv progress4,
                     .logEv ("✓ Validation passed: "
                              ++ toString (env.times 3) ++ "ms"),
                     .logEv "[Explainer] Attempting explanation...",
                     .explainerCall]
  let explanation := explainer env.explainerRun tree
  let progress5 := updateAt progress4 4
    (fun s => { s with completed := true, timestamp := env.times 4 })
  let ev7 := ev6 ++ [.progressEv progress5,
                     .logEv ("✓ Explainer succeeded: "
                              ++ toString (env.times 4) ++ "ms")]
  let prev := match env.previousTree with
              | some v => if jsTruthy v then some v else none
              | none => none
  let diff := diffTreesJ prev tree
  let progress6 := updateAt progress5 5
    (fun s => { s with completed := true, timestamp := env.times 5 })
  let ev8 := ev7 ++ [.progressEv progress6,
                     .logEv ("✓ Complete: " ++ toString (env.times 5) ++ "ms")]
  let donePayload (sid : String) : DonePayload :=
    { success := true, planField := some tree, explanation := some explanation,
      diff := some diff, progress := some progress6, sessionId := some sid,
      creditsRemaining := some creditsRemaining,
      dailyCredits := some env.dailyCredits }
  match env.sessionHeader with
  | none =>
      ⟨ev8 ++ [.logEv "✓ Saved to DB", .doneEv (donePayload env.newSessionId)],
       some user2⟩
  | some sid =>
      match env.findSession sid with
      | none =>
          ⟨ev8 ++ [.errorEv "Session not found.",
                   .doneEv { success := false, error := some "Session not found.",
                             progress := some progress6 }],
           some user2⟩
      | some s =>
          ⟨ev8 ++ [.logEv "✓ Saved to DB", .doneEv (donePayload s)], some user2⟩

/-! ## Spec-side definitions and concrete inputs used by the theorems -/

/-- The spec's reading of prop conformance for one component: every declared
field checks (required present and well-typed, optional well-typed when
present) AND no key outside the schema's permitted set is present.  This is
the claimed characterisation, to be compared with `validateProps`. -/
def specExactSchemaConform (schema : List FieldSpec) (fields : List (String × JValue)) : Bool :=
  schema.all (zodFieldOk fields)
    && fields.all (fun kv => (schema.map (fun f => f.key)).contains kv.1)

mutual

/-- Spec-side depth-first pre-order flatten of a tree's type names
(`root, then children left to right, recursively`). -/
def preorderTypes (node : UINode) : List String :=
  match node with
  | .mk t _p cs => t :: preorderTypesList (cs.getD [])
termination_by sizeOf node
decreasing_by
  simp_wf
  refine Nat.lt_of_le_of_lt (sizeOf_option_getD_nil _) ?_
  omega

/-- Pre-order flatten of a forest, left to right. -/
def preorderTypesList (xs : List UINode) : List String :=
  match xs with
  | [] => []
  | c :: rest => preorderTypes c ++ preorderTypesList rest
termination_by sizeOf xs

end

/-- `T` with one additional `Button` node appended as a last child of the
root. -/
def withOneMoreButton (node : UINode) : UINode :=
  match node with
  | .mk t p cs => .mk t p (some ((cs.getD []) ++ [UINode.mk "Button" none none]))

/-- One explainer model attempt that the source's catch treats as a
failure: either the call failed or it returned whitespace-only text. -/
def attemptFailsOrEmpty : CallOutcome String → Prop
  | .failure _ _ => True
  | .success t => t.trim = ""

/-- A concrete plan: one Button with a label. -/
def planW : Plan :=
  ⟨ComponentSpec.mk "Button" (some (.obj [("label", .str "Go")])) none none, none⟩

/-- The tree `generator planW` produces. -/
def treeW : JValue :=
  .obj [("type", .str "Button"), ("props", .obj [("label", .str "Go")]),
        ("children", .arr [])]

/-- A concrete environment whose request is authorised, funded with 3
credits, and carries a forbidden intent. -/
def envCX : RouteEnv :=
  { authHeader := some "Bearer t0"
  , verify := fun _ => some ⟨"u1", "u@example.com"⟩
  , findUser := fun _ => some ⟨3, some "2026-10-11", some "2026-10-01"⟩
  , todayKey := "2026-10-11"
  , dailyCredits := 4
  , envKeys := [some "k1", some "k2", some "k3"]
  , intent := "use inline css"
  , previousTree := none
  , plannerRun := fun _ _ => CallOutcome.failure false "unused"
  , explainerRun := fun _ => CallOutcome.failure false "unused"
  , sessionHeader := none
  , findSession := fun _ => none
  , newSessionId := "s1"
  , times := fun _ => 100 }

/-- The same request without an Authorization header. -/
def envNoTok : RouteEnv := { envCX with authHeader := none }

/-- The same request with a safe intent and a planner whose every attempt
fails (not rate-limited). -/
def envPlanFail : RouteEnv := { envCX with
  intent := "a plain dashboard request"
  , plannerRun := fun _ _ => CallOutcome.failure false "boom" }

theorem validateProps_valid_eq (t : String) (props : Option JValue)
    (schema : List FieldSpec) (hs : propSchemas t = some schema) :
    (validateProps t props).valid = zodParseOk schema (jsOrEmptyObj props) := by
  simp [validateProps, hs]
  split <;> simp [*]

theorem zodFieldOk_iff (fields : List (String × JValue)) (f : FieldSpec) :
    zodFieldOk fields f = true ↔
      ((f.required = true →
          ∃ v, lookupField fields f.key = some v ∧ zodCheckType f.type v = true)
        ∧ (∀ v, lookupField fields f.key = some v →
            zodCheckType f.type v = true)) := by
  unfold zodFieldOk
  cases hl : lookupField fields f.key with
  | none => cases hr : f.required <;> simp [hl]
  | some v => simp [hl]; intro h _; exact h

/-- C3 (amended): for every registered component type, `validateProps`
accepts an object mapping iff every schema field checks (required keys
present with the right primitive/enum type, optional keys well-typed when
present); extra keys are ignored, not rejected.  In particular a Button
without `label` is rejected, and a Button whose `variant` is any string
other than "primary" or "secondary" is rejected. -/
theorem validateProps_accepts_iff (t : String) (schema : List FieldSpec)
    (fields : List (String × JValue)) (hs : propSchemas t = some schema) :
    ((validateProps t (some (.obj fields))).valid = true ↔
      ∀ f ∈ schema,
        (f.required = true →
          ∃ v, lookupField fields f.key = some v ∧ zodCheckType f.type v = true)
        ∧ (∀ v, lookupField fields f.key = some v →
            zodCheckType f.type v = true))
    ∧ (∀ m, lookupField m "label" = none →
        (validateProps "Button" (some (.obj m))).valid = false)
    ∧ (∀ m s, lookupField m "variant" = some (.str s) → s ≠ "primary" →
        s ≠ "secondary" →
        (validateProps "Button" (some (.obj m))).valid = false) := by
  refine ⟨?_, ?_, ?_⟩
  · rw [validateProps_valid_eq t _ schema hs]
    have hobj : jsOrEmptyObj (some (.obj fields)) = .obj fields := by
      simp [jsOrEmptyObj, jsTruthy]
    rw [hobj]
    simp only [zodParseOk, List.all_eq_true]
    constructor
    · intro h f hf
      exact (zodFieldOk_iff fields f).mp (h f hf)
    · intro h f hf
      exact (zodFieldOk_iff fields f).mpr (h f hf)
  · intro m hm
    rw [validateProps_valid_eq "Button" _ _ rfl]
    simp [jsOrEmptyObj, jsTruthy, zodParseOk, zodFieldOk, hm]
  · intro m s hm h1 h2
    rw [validateProps_valid_eq "Button" _ _ rfl]
    simp [jsOrEmptyObj, jsTruthy, zodParseOk, zodFieldOk, hm, zodCheckType, h1, h2]

/-- C3 witness: the Button-variant rejection at a concrete input. -/
theorem validateProps_accepts_iff_witness :
    (validateProps "Button" (some (.obj [("variant", .str "ghost")]))).valid = false :=
  (validateProps_accepts_iff "Button"
      [⟨"label", true, .string⟩, ⟨"variant", false, .strEnum ["primary", "secondary"]⟩]
      [] rfl).2.2 [("variant", .str "ghost")] "ghost" rfl
    (by decide) (by decide)

/-- C3 counterexample: `validateProps` accepts a Button whose props carry a
key outside the schema's permitted set, so acceptance is not equivalent to
the spec's exact-conformance (which requires no extra keys). -/
theorem validateProps_extra_key_counterexample :
    (validateProps "Button"
        (some (.obj [("label", .str "Go"), ("foo", .str "bar")]))).valid = true
    ∧ propSchemas "Button" = some [⟨"label", true, .string⟩,
        ⟨"variant", false, .strEnum ["primary", "secondary"]⟩]
    ∧ specExactSchemaConform
        [⟨"label", true, .string⟩, ⟨"variant", false, .strEnum ["primary", "secondary"]⟩]
        [("label", .str "Go"), ("foo", .str "bar")] = false := by
  refine ⟨by decide, rfl, by decide⟩

/-- C4: on an object node whose `type` is missing, falsy, or not one of the
8 registered names, `validateUINode` returns invalid with exactly one error
at that node's path naming the offending type, and produces no error under
any deeper path (no recursion into the children). -/
theorem validateUINode_bad_type_stops (fields : List (String × JValue))
    (path : String) (h : badTypeField (lookupField fields "type") = true) :
    validateUINode (.obj fields) path =
      ⟨false, [path ++ ": Invalid component type \""
                 ++ displayJs (lookupField fields "type") ++ "\""]⟩
    ∧ allowedComponents.length = 8 := by
  constructor
  · rw [validateUINode]
    simp [h]
  · rfl

/-- C4 witness: an unregistered type with children present yields the single
type error and nothing deeper. -/
theorem validateUINode_bad_type_stops_witness :
    badTypeField (lookupField [("type", JValue.str "Div"),
        ("children", JValue.arr [JValue.obj [("type", JValue.str "Card")]])] "type") = true
    ∧ (validateUINode (.obj [("type", JValue.str "Div"),
          ("children", JValue.arr [JValue.obj [("type", JValue.str "Card")]])]) "root" =
        ⟨false, ["root: Invalid component type \"Div\""]⟩
       ∧ allowedComponents.length = 8) :=
  ⟨by decide, validateUINode_bad_type_stops _ "root" (by decide)⟩

theorem validateUINode_valid_eq_isEmpty (node : JValue) (path : String) :
    (validateUINode node path).valid = (validateUINode node path).errors.isEmpty := by
  cases node with
  | null => rw [validateUINode]; rfl
  | bool b => rw [validateUINode]; rfl
  | num n => rw [validateUINode]; rfl
  | str s => rw [validateUINode]; rfl
  | arr xs => rw [validateUINode]; rfl
  | obj fields =>
      rw [validateUINode]
      by_cases h : badTypeField (lookupField fields "type") = true
      · simp [h]
      · simp [h]

/-- C1: whenever `generator` returns a tree (rather than raising), that tree
passes `validateUINode` with `valid` and an empty error list. -/
theorem generator_ok_implies_validates (plan : Plan) (t : JValue)
    (h : generator plan = Except.ok t) :
    (validateUINode t "root").valid = true
    ∧ (validateUINode t "root").errors = [] := by
  unfold generator at h
  by_cases hv : (validateUINode (specToNode plan.root) "root").valid = true
  · simp [hv] at h
    subst h
    refine ⟨hv, ?_⟩
    have h2 := validateUINode_valid_eq_isEmpty (specToNode plan.root) "root"
    rw [hv] at h2
    exact (List.isEmpty_iff).mp h2.symm
  · simp [hv] at h

/-- C1 witness: a concrete Button plan generates and its tree validates. -/
theorem generator_ok_implies_validates_witness :
    generator planW = Except.ok treeW
    ∧ ((validateUINode treeW "root").valid = true
       ∧ (validateUINode treeW "root").errors = []) := by
  have hg : generator planW = Except.ok treeW := by
    simp [generator, planW, treeW, specToNode, specsToNodes, validateUINode,
          validateChildren, validateProps, propSchemas, zodParseOk, zodFieldOk,
          zodCheckType, lookupField, jsOrEmptyObj, jsTruthy, badTypeField,
          allowedComponents]
  exact ⟨hg, generator_ok_implies_validates planW treeW hg⟩

theorem flatten_acc (n : Nat) :
    (∀ node arr, sizeOf node ≤ n →
      flattenTree node arr = arr ++ preorderTypes node)
    ∧ (∀ (xs : List UINode) arr, sizeOf xs ≤ n →
      flattenTreeList xs arr = arr ++ preorderTypesList xs) := by
  induction n using Nat.strong_induction_on with
  | _ n ih =>
    constructor
    · intro node arr hle
      match node with
      | .mk t p cs =>
        rw [flattenTree, preorderTypes]
        have hsz : sizeOf (cs.getD []) < n := by
          have h1 := sizeOf_option_getD_nil cs
          have h2 : sizeOf (UINode.mk t p cs) = 1 + sizeOf t + sizeOf p + sizeOf cs := by
            simp
          omega
        rw [(ih _ hsz).2 (cs.getD []) (arr ++ [t]) (le_refl _)]
        simp
    · intro xs arr hle
      match xs with
      | [] =>
        rw [flattenTreeList, preorderTypesList]
        simp
      | c :: rest =>
        have hszc : sizeOf c < n := by
          have : sizeOf (c :: rest) = 1 + sizeOf c + sizeOf rest := by simp
          omega
        have hszr : sizeOf rest < n := by
          have : sizeOf (c :: rest) = 1 + sizeOf c + sizeOf rest := by simp
          omega
        rw [flattenTreeList, preorderTypesList,
            (ih _ hszc).1 c arr (le_refl _),
            (ih _ hszr).2 rest _ (le_refl _)]
        simp

theorem flattenTree_eq_preorder (node : UINode) :
    flattenTree node [] = preorderTypes node := by
  simpa using (flatten_acc (sizeOf node)).1 node [] (le_refl _)

theorem preorderTypesList_append (xs ys : List UINode) :
    preorderTypesList (xs ++ ys) =
      preorderTypesList xs ++ preorderTypesList ys := by
  induction xs with
  | nil => rw [preorderTypesList]; simp
  | cons c rest ih =>
    rw [List.cons_append, preorderTypesList, preorderTypesList, ih,
        List.append_assoc]

/-- C8: with no previous tree, the diff reports every type of the new tree's
depth-first pre-order flatten as added, in traversal order, and removes
nothing. -/
theorem diffTrees_no_old_tree (T : UINode) :
    diffTrees none T = ⟨preorderTypes T, []⟩ := by
  unfold diffTrees
  rw [flattenTree_eq_preorder]

/-- C7: a type name is added iff it occurs in the new flatten and nowhere in
the old flatten (membership, not count), symmetrically for removed; hence
adding one more Button to a tree already containing a Button adds
nothing. -/
theorem diffTrees_membership (oldT newT : UINode) (x : String) :
    (x ∈ (diffTrees (some oldT) newT).added ↔
      (x ∈ flattenTree newT [] ∧ x ∉ flattenTree oldT []))
    ∧ (x ∈ (diffTrees (some oldT) newT).removed ↔
      (x ∈ flattenTree oldT [] ∧ x ∉ flattenTree newT []))
    ∧ (∀ T : UINode, "Button" ∈ flattenTree T [] →
        (diffTrees (some T) (withOneMoreButton T)).added = []) := by
  refine ⟨?_, ?_, ?_⟩
  · simp [diffTrees, List.mem_filter]
  · simp [diffTrees, List.mem_filter]
  · intro T hB
    match T with
    | .mk t p cs =>
      have hnew : flattenTree (withOneMoreButton (UINode.mk t p cs)) [] =
          flattenTree (UINode.mk t p cs) [] ++ ["Button"] := by
        rw [flattenTree_eq_preorder, flattenTree_eq_preorder]
        unfold withOneMoreButton
        rw [preorderTypes, preorderTypes]
        simp [preorderTypesList_append, preorderTypesList, preorderTypes]
      simp only [diffTrees, hnew]
      rw [List.filter_eq_nil_iff]
      intro a ha
      simp only [Bool.not_eq_true, Bool.not_eq_true']
      rcases List.mem_append.mp ha with h | h
      · simp [h]
      · simp only [List.mem_singleton] at h
        subst h
        simp [hB]

/-- C7 witness: a one-Button tree plus one more Button diffs to no
additions. -/
theorem diffTrees_membership_witness :
    "Button" ∈ flattenTree (UINode.mk "Button" none none) []
    ∧ (diffTrees (some (UINode.mk "Button" none none))
        (withOneMoreButton (UINode.mk "Button" none none))).added = [] := by
  have hm : "Button" ∈ flattenTree (UINode.mk "Button" none none) [] := by
    simp [flattenTree, flattenTreeList]
  exact ⟨hm, (diffTrees_membership (UINode.mk "Button" none none)
      (UINode.mk "Button" none none) "Button").2.2 _ hm⟩

/-- C2: with the configured two models and two credentials, a rate-limited
failure retries the same model with the next credential, while any other
failure advances to the next model with credentials reset to the first.
Concretely: (1) both attempts on the first model failing rate-limited and
the second model's first attempt succeeding gives exactly the three
attempts (m0,c0), (m0,c1), (m1,c0) in that order with the second model's
output; (2) a non-rate-limited failure on (m0,c0) skips c1 entirely and
goes straight to (m1,c0) — exactly two attempts, credentials reset to the
first; (3) when all four attempts fail rate-limited, the raised aggregate
error carries the last observed error, (m1,c1)'s; (4) when every tried
attempt fails non-rate-limited, only (m0,c0) and (m1,c0) are attempted and
the aggregate error carries (m1,c0)'s error. -/
theorem planner_fallback_order (run : String → String → CallOutcome String)
    (c0 c1 out e00 e01 : String)
    (h00 : run "openrouter/free" c0 = .failure true e00)
    (h01 : run "openrouter/free" c1 = .failure true e01)
    (h10 : run "meta-llama/llama-3.2-3b-instruct:free" c0 = .success out) :
    planner run [c0, c1] =
      ([("openrouter/free", c0), ("openrouter/free", c1),
        ("meta-llama/llama-3.2-3b-instruct:free", c0)], .ok out)
    ∧ (∀ (run2 : String → String → CallOutcome String) (out2 f00 : String),
        run2 "openrouter/free" c0 = .failure false f00 →
        run2 "meta-llama/llama-3.2-3b-instruct:free" c0 = .success out2 →
        planner run2 [c0, c1] =
          ([("openrouter/free", c0),
            ("meta-llama/llama-3.2-3b-instruct:free", c0)], .ok out2))
    ∧ (∀ (run2 : String → String → CallOutcome String) (f00 f01 f10 f11 : String),
        run2 "openrouter/free" c0 = .failure true f00 →
        run2 "openrouter/free" c1 = .failure true f01 →
        run2 "meta-llama/llama-3.2-3b-instruct:free" c0 = .failure true f10 →
        run2 "meta-llama/llama-3.2-3b-instruct:free" c1 = .failure true f11 →
        planner run2 [c0, c1] =
          ([("openrouter/free", c0), ("openrouter/free", c1),
            ("meta-llama/llama-3.2-3b-instruct:free", c0),
            ("meta-llama/llama-3.2-3b-instruct:free", c1)],
           .error ("All models failed. Last error: " ++ f11)))
    ∧ (∀ (run2 : String → String → CallOutcome String) (f00 f10 : String),
        run2 "openrouter/free" c0 = .failure false f00 →
        run2 "meta-llama/llama-3.2-3b-instruct:free" c0 = .failure false f10 →
        planner run2 [c0, c1] =
          ([("openrouter/free", c0),
            ("meta-llama/llama-3.2-3b-instruct:free", c0)],
           .error ("All models failed. Last error: " ++ f10))) := by
  refine ⟨?_, ?_, ?_, ?_⟩
  · simp [planner, plannerModels, plannerLoop, plannerTryKeys, h00, h01, h10]
  · intro run2 out2 f00 g00 g10
    simp [planner, plannerModels, plannerLoop, plannerTryKeys, g00, g10]
  · intro run2 f00 f01 f10 f11 g00 g01 g10 g11
    simp [planner, plannerModels, plannerLoop, plannerTryKeys, g00, g01, g10, g11]
  · intro run2 f00 f10 g00 g10
    simp [planner, plannerModels, plannerLoop, plannerTryKeys, g00, g10]

/-- C2 witness: the three-attempt rate-limited scenario and the two-attempt
other-failure scenario at concrete credentials. -/
theorem planner_fallback_order_witness :
    planner (fun m k =>
        if m == "openrouter/free" then CallOutcome.failure true ("rl " ++ k)
        else if k == "c0" then CallOutcome.success "OUT"
        else CallOutcome.failure false "x") ["c0", "c1"] =
      ([("openrouter/free", "c0"), ("openrouter/free", "c1"),
        ("meta-llama/llama-3.2-3b-instruct:free", "c0")], .ok "OUT")
    ∧ planner (fun m k =>
        if m == "openrouter/free" then CallOutcome.failure false "parse error"
        else if k == "c0" then CallOutcome.success "OUT2"
        else CallOutcome.failure false "x") ["c0", "c1"] =
      ([("openrouter/free", "c0"),
        ("meta-llama/llama-3.2-3b-instruct:free", "c0")], .ok "OUT2") :=
  ⟨(planner_fallback_order _ "c0" "c1" "OUT" "rl c0" "rl c1" rfl rfl rfl).1,
   (planner_fallback_order
      (fun m k =>
        if m == "openrouter/free" then CallOutcome.failure true ("rl " ++ k)
        else if k == "c0" then CallOutcome.success "OUT"
        else CallOutcome.failure false "x")
      "c0" "c1" "OUT" "rl c0" "rl c1" rfl rfl rfl).2.1 _ "OUT2" "parse error"
      rfl rfl⟩

theorem explainerLoop_skip (run : String → CallOutcome String) (plan : JValue)
    (m : String) (rest : List String) (h : attemptFailsOrEmpty (run m)) :
    explainerLoop run plan (m :: rest) = explainerLoop run plan rest := by
  rw [explainerLoop]
  cases hm : run m with
  | success t =>
      rw [hm] at h
      unfold attemptFailsOrEmpty at h
      simp [h]
  | failure rl msg => rfl

/-- C10: when every explainer model attempt fails or returns whitespace-only
text, the explainer does not raise: it returns the deterministic fallback
sentence built from the tree's root type and child count. -/
theorem explainer_total_fallback (run : String → CallOutcome String)
    (plan : JValue) (h : ∀ m ∈ explainerModels, attemptFailsOrEmpty (run m)) :
    explainer run plan = explainerFallbackText plan := by
  have h0 := h "openrouter/free" (by simp [explainerModels])
  have h1 := h "meta-llama/llama-3.2-3b-instruct:free" (by simp [explainerModels])
  unfold explainer explainerModels
  rw [explainerLoop_skip run plan _ _ h0, explainerLoop_skip run plan _ _ h1,
      explainerLoop]

/-- C10 witness: both models failing yields the fallback sentence for the
concrete Button tree. -/
theorem explainer_total_fallback_witness :
    explainer (fun _ => CallOutcome.failure false "down") treeW =
      "This UI structure was generated based on your request. It includes Button as the root component." :=
  (explainer_total_fallback (fun _ => CallOutcome.failure false "down") treeW
    (fun m _ => trivial)).trans (by rfl)

/-- C6 (amended): the credit check-and-decrement executes after auth and
user loading but before the intent is read and before the Security Filter
runs, so a security-rejected request also consumes a credit; and once
decremented the credit is never restored — every later branch, success or
failure, leaves the persisted `creditsRemaining` at the decremented
value. -/
theorem credits_decrement_final (env : RouteEnv) (token : String)
    (payload : TokenPayload) (user0 : UserRec)
    (h1 : extractToken env.authHeader = some token)
    (h2 : env.verify token = some payload)
    (h3 : env.findUser payload.userId = some user0)
    (h4 : 0 < ((applyDailyCredits env.dailyCredits env.todayKey user0).1).creditsRemaining) :
    (route env).finalUser =
      some { (applyDailyCredits env.dailyCredits env.todayKey user0).1 with
             creditsRemaining :=
               ((applyDailyCredits env.dailyCredits env.todayKey user0).1).creditsRemaining - 1 } := by
  unfold route
  simp only [h1, h2, h3]
  rw [if_neg (by omega)]
  split
  · rfl
  · split
    · rfl
    · split
      · rfl
      · split
        · rfl
        · split
          · rfl
          · rfl

/-- C6 witness: an authorised three-credit user ends at two credits. -/
theorem credits_decrement_final_witness :
    (route envCX).finalUser =
      some { creditsRemaining := 2, lastCreditReset := some "2026-10-11",
             createdAtKey := some "2026-10-01" } :=
  credits_decrement_final envCX "t0" ⟨"u1", "u@example.com"⟩
    ⟨3, some "2026-10-11", some "2026-10-01"⟩ rfl rfl rfl (by decide)

/-- C6 counterexample: a security-rejected request still consumes a credit —
the filter rejects the intent, the only terminal payload is the failure one,
and the user's credits drop from 3 to 2. -/
theorem credits_consumed_on_security_reject :
    detectPromptInjection envCX.intent =
      some "Forbidden pattern detected: /inline css/i"
    ∧ envCX.findUser "u1" = some ⟨3, some "2026-10-11", some "2026-10-01"⟩
    ∧ ((route envCX).events.filterMap REvent.doneOf).map
        (fun p => (p.success, p.error)) =
        [(false, some "Prompt violates system constraints.")]
    ∧ (route envCX).finalUser =
        some ⟨2, some "2026-10-11", some "2026-10-01"⟩ := by
  exact ⟨by decide, rfl, by rfl, by rfl⟩

theorem find?_first_correct {α : Type} (p : α → Bool) :
    ∀ (l : List α) (a : α), l.find? p = some a →
      ∃ l1 l2, l = l1 ++ a :: l2 ∧ p a = true ∧ ∀ x ∈ l1, p x = false := by
  intro l
  induction l with
  | nil => intro a h; simp [List.find?] at h
  | cons x rest ih =>
    intro a h
    cases hp : p x with
    | true =>
      rw [List.find?_cons_of_pos _ hp] at h
      injection h with h
      refine ⟨[], rest, by rw [h]; rfl, by rw [← h]; exact hp, ?_⟩
      intro y hy; simp at hy
    | false =>
      rw [List.find?_cons_of_neg _ (by simp [hp])] at h
      obtain ⟨l1, l2, hs, hpa, hprev⟩ := ih a h
      refine ⟨x :: l1, l2, by rw [hs]; rfl, hpa, ?_⟩
      intro y hy
      rcases List.mem_cons.mp hy with rfl | hmem
      · exact hp
      · exact hprev y hmem

theorem all_ite_log (c : Prop) [Decidable c] (s : String) (f : REvent → Bool)
    (hf : f (REvent.logEv s) = true) :
    (if c then [REvent.logEv s] else []).all f = true := by
  split <;> simp [hf]

theorem filterMap_done_ite_log (c : Prop) [Decidable c] (s : String) :
    (if c then [REvent.logEv s] else []).filterMap REvent.doneOf = [] := by
  split <;> rfl

/-- C5: when the Security Filter matches, it reports the first matching
pattern in its fixed order, and the request pipeline makes zero planner or
explainer calls and terminates with exactly one `done` payload, a failure
payload. -/
theorem security_filter_halts (env : RouteEnv) (msg : String)
    (h : detectPromptInjection env.intent = some msg) :
    (∃ l1 pat l2, forbiddenPatterns = l1 ++ pat :: l2
       ∧ patternTest pat env.intent = true
       ∧ (∀ q ∈ l1, patternTest q env.intent = false)
       ∧ msg = "Forbidden pattern detected: /" ++ pat ++ "/i")
    ∧ (route env).events.all
        (fun e => !e.isPlannerCall && !e.isExplainerCall) = true
    ∧ ((route env).events.filterMap REvent.doneOf).all
        (fun p => !p.success) = true
    ∧ ((route env).events.filterMap REvent.doneOf).length = 1 := by
  have hfirst : ∃ l1 pat l2, forbiddenPatterns = l1 ++ pat :: l2
      ∧ patternTest pat env.intent = true
      ∧ (∀ q ∈ l1, patternTest q env.intent = false)
      ∧ msg = "Forbidden pattern detected: /" ++ pat ++ "/i" := by
    unfold detectPromptInjection at h
    cases hf : List.find? (fun p => patternTest p env.intent) forbiddenPatterns with
    | none => rw [hf] at h; simp at h
    | some pat =>
      rw [hf] at h
      simp at h
      obtain ⟨l1, l2, hs, hpa, hprev⟩ := find?_first_correct _ _ _ hf
      exact ⟨l1, pat, l2, hs, hpa, hprev, h.symm⟩
  refine ⟨hfirst, ?_⟩
  cases hA : extractToken env.authHeader with
  | none =>
    simp only [route, hA]
    exact ⟨rfl, rfl, rfl⟩
  | some token =>
  cases hV : env.verify token with
  | none =>
    simp only [route, hA, hV]
    exact ⟨rfl, rfl, rfl⟩
  | some payload =>
  cases hU : env.findUser payload.userId with
  | none =>
    simp only [route, hA, hV, hU]
    exact ⟨rfl, rfl, rfl⟩
  | some user0 =>
  by_cases hC : (applyDailyCredits env.dailyCredits env.todayKey user0).1.creditsRemaining ≤ 0
  · simp only [route, hA, hV, hU]
    rw [if_pos hC]
    refine ⟨?_, ?_, ?_⟩ <;>
      simp [List.all_append, List.filterMap_append, all_ite_log,
            filterMap_done_ite_log, REvent.isPlannerCall,
            REvent.isExplainerCall, REvent.doneOf]
  · simp only [route, hA, hV, hU]
    rw [if_neg hC, h]
    refine ⟨?_, ?_, ?_⟩ <;>
      simp [List.all_append, List.filterMap_append, all_ite_log,
            filterMap_done_ite_log, REvent.isPlannerCall,
            REvent.isExplainerCall, REvent.doneOf]

/-- C5 witness: the forbidden intent "use inline css" halts the concrete
request with no model calls. -/
theorem security_filter_halts_witness :
    (route envCX).events.all
      (fun e => !e.isPlannerCall && !e.isExplainerCall) = true
    ∧ ((route envCX).events.filterMap REvent.doneOf).length = 1 :=
  ⟨(security_filter_halts envCX "Forbidden pattern detected: /inline css/i"
      (by decide)).2.1,
   (security_filter_halts envCX "Forbidden pattern detected: /inline css/i"
      (by decide)).2.2.2⟩

/-- C9 counterexample: the missing-token failure path emits a terminal
`done` payload with `success:false` and an error but NO `progress` field,
so not every failure path carries the progress snapshot. -/
theorem failure_payload_missing_progress :
    ((route envNoTok).events.filterMap REvent.doneOf).map
      (fun p => (p.success, p.error, p.progress)) =
      [(false, some "Unauthorized: No token provided", none)] := by rfl

/-- C9 (amended): failure paths reached after the security step is marked
complete carry the accumulated progress snapshot: the injection rejection,
the catch path for a planner failure, the catch path for a generator
failure, and the session-not-found failure all emit `success:false` with
`progress`; in the catch paths the in-progress step records its elapsed
time while its completed flag stays false, and in the injection path the
in-progress Planning step is still at timestamp 0, not completed.  The
missing-token, invalid-token, user-not-found and credits-exhausted failure
payloads, by contrast, omit the `progress` field entirely. -/
theorem failure_payloads_after_security (env : RouteEnv) (token : String)
    (payload : TokenPayload) (user0 : UserRec)
    (h1 : extractToken env.authHeader = some token)
    (h2 : env.verify token = some payload)
    (h3 : env.findUser payload.userId = some user0)
    (h4 : 0 < ((applyDailyCredits env.dailyCredits env.todayKey user0).1).creditsRemaining) :
    (∀ m, detectPromptInjection env.intent = some m →
      ((route env).events.filterMap REvent.doneOf) =
        [{ success := false,
           error := some "Prompt violates system constraints.",
           progress := some (updateAt initialProgress 0
             (fun s => { s with completed := true, timestamp := env.times 0 })) }]
      ∧ (updateAt initialProgress 0
          (fun s => { s with completed := true, timestamp := env.times 0 })).get? 1 =
          some ⟨"Planning layout...", "🎯", false, 0⟩)
    ∧ (∀ e, detectPromptInjection env.intent = none →
        (planner env.plannerRun
          (routeApiKeys env (applyDailyCredits env.dailyCredits env.todayKey user0).1)).2
            = .error e →
        ((route env).events.filterMap REvent.doneOf) =
          [{ success := false,
             error := some (if e == "" then "System failure." else e),
             progress := some (catchSnapAfterPlanning env) }]
        ∧ (catchSnapAfterPlanning env).get? 1 =
            some ⟨"Planning layout...", "🎯", false, env.times 1⟩)
    ∧ (∀ e plan, detectPromptInjection env.intent = none →
        (planner env.plannerRun
          (routeApiKeys env (applyDailyCredits env.dailyCredits env.todayKey user0).1)).2
            = .ok plan →
        generator plan = .error e →
        ((route env).events.filterMap REvent.doneOf) =
          [{ success := false,
             error := some (if e == "" then "System failure." else e),
             progress := some (catchSnapAfterBuilding env) }]
        ∧ (catchSnapAfterBuilding env).get? 2 =
            some ⟨"Building tree...", "🏗️", false, env.times 2⟩)
    ∧ (∀ plan tree sid, detectPromptInjection env.intent = none →
        (planner env.plannerRun
          (routeApiKeys env (applyDailyCredits env.dailyCredits env.todayKey user0).1)).2
            = .ok plan →
        generator plan = .ok tree →
        env.sessionHeader = some sid →
        env.findSession sid = none →
        ((route env).events.filterMap REvent.doneOf) =
          [{ success := false, error := some "Session not found.",
             progress := some (completeSnap env) }])
    ∧ (∀ env2 : RouteEnv, extractToken env2.authHeader = none →
        ((route env2).events.filterMap REvent.doneOf) =
          [{ success := false, error := some "Unauthorized: No token provided" }])
    ∧ (∀ (env2 : RouteEnv) (token2 : String),
        extractToken env2.authHeader = some token2 →
        env2.verify token2 = none →
        ((route env2).events.filterMap REvent.doneOf) =
          [{ success := false, error := some "Unauthorized: Invalid token" }])
    ∧ (∀ (env2 : RouteEnv) (token2 : String) (payload2 : TokenPayload),
        extractToken env2.authHeader = some token2 →
        env2.verify token2 = some payload2 →
        env2.findUser payload2.userId = none →
        ((route env2).events.filterMap REvent.doneOf) =
          [{ success := false, error := some "Unauthorized: User not found" }])
    ∧ (∀ (env2 : RouteEnv) (token2 : String) (payload2 : TokenPayload)
          (userX : UserRec),
        extractToken env2.authHeader = some token2 →
        env2.verify token2 = some payload2 →
        env2.findUser payload2.userId = some userX →
        ((applyDailyCredits env2.dailyCredits env2.todayKey userX).1).creditsRemaining ≤ 0 →
        ((route env2).events.filterMap REvent.doneOf) =
          [{ success := false,
             error := some "Daily credits exhausted. Try again after reset.",
             creditsRemaining := some 0,
             dailyCredits := some env2.dailyCredits }]) := by
  refine ⟨?_, ?_, ?_, ?_, ?_, ?_, ?_, ?_⟩
  · intro m hdet
    constructor
    · simp only [route, h1, h2, h3]
      rw [if_neg (by omega), hdet]
      simp [List.filterMap_append, filterMap_done_ite_log, REvent.doneOf]
    · rfl
  · intro e hdet hplan
    constructor
    · simp only [route, h1, h2, h3]
      rw [if_neg (by omega), hdet, hplan]
      simp [List.filterMap_append, filterMap_done_ite_log, REvent.doneOf,
            catchTail, catchSnapAfterPlanning, updateAt, initialProgress,
            List.findIdx?]
    · rfl
  · intro e plan hdet hplan hgen
    constructor
    · simp only [route, h1, h2, h3]
      rw [if_neg (by omega), hdet, hplan]
      simp [hgen, List.filterMap_append, filterMap_done_ite_log, REvent.doneOf,
            catchTail, catchSnapAfterBuilding, updateAt, initialProgress,
            List.findIdx?]
    · rfl
  · intro plan tree sid hdet hplan hgen hsess hfind
    simp only [route, h1, h2, h3]
    rw [if_neg (by omega), hdet, hplan]
    simp [hgen, hsess, hfind, List.filterMap_append, filterMap_done_ite_log,
          REvent.doneOf, completeSnap]
  · intro env2 hA
    simp only [route, hA]
    rfl
  · intro env2 token2 hA hV
    simp only [route, hA, hV]
    rfl
  · intro env2 token2 payload2 hA hV hU
    simp only [route, hA, hV, hU]
    rfl
  · intro env2 token2 payload2 userX hA hV hU hC
    simp only [route, hA, hV, hU]
    rw [if_pos hC]
    simp [List.filterMap_append, filterMap_done_ite_log, REvent.doneOf]

/-- C9 witness: a concrete planner-exhaustion run emits the failure payload
with the snapshot, the Planning step stamped but not completed. -/
theorem failure_payloads_after_security_witness :
    ((route envPlanFail).events.filterMap REvent.doneOf) =
      [{ success := false,
         error := some "All models failed. Last error: boom",
         progress := some (catchSnapAfterPlanning envPlanFail) }]
    ∧ (catchSnapAfterPlanning envPlanFail).get? 1 =
        some ⟨"Planning layout...", "🎯", false, 100⟩ := by
  have h := (failure_payloads_after_security envPlanFail "t0"
      ⟨"u1", "u@example.com"⟩ ⟨3, some "2026-10-11", some "2026-10-01"⟩
      rfl rfl rfl (by decide)).2.1
      "All models failed. Last error: boom" (by decide) (by rfl)
  exact ⟨h.1, h.2⟩
